import Mathlib

/-!
Shallow embedding of the "latest-value resolution" logic of the portfolio
module (src/modules/portfolio/ui_portfolio.py, portfolio_storage.py,
portfolio_utils.py).

Cell values are modelled by an inductive `Value` covering the Python values
that occur in the tables: `None`, strings, ints, floats (as rationals),
bools and the float NaN.  Machine floats carry no behaviour here beyond
equality with 0 and NaN-ness, so `Rat` plus a separate `nan` constructor is
an exact model for the operations the code performs.  A DataFrame is a
column list plus a list of rows; a row is an association list from column
names to values (a missing entry reads as `None`, like `row.get(c)`).
-/

/-- A Python cell value as it occurs in the portfolio tables. -/
inductive Value where
  | none
  | str (s : String)
  | int (n : Int)
  | float (q : Rat)
  | bool (b : Bool)
  | nan
deriving DecidableEq, Repr

/-- Python `str(v)`.  For floats this abstracts CPython's repr; it is exact
for integral floats (`str(70.0) = "70.0"`), the only floats the development
evaluates.  `str(float('nan')) = "nan"`, `str(None) = "None"`,
`str(True) = "True"`. -/
def pyStr : Value → String
  | Value.none => "None"
  | Value.str s => s
  | Value.int n => toString n
  | Value.float q => if q.den == 1 then toString q.num ++ ".0" else toString q
  | Value.bool b => if b then "True" else "False"
  | Value.nan => "nan"

/-- Python `str.lower` on one character (ASCII; the tokens this code
compares are all ASCII). -/
def lowerChar (c : Char) : Char :=
  if c.isUpper then Char.ofNat (c.toNat + 32) else c

/-- Python `s.lower()`. -/
def pyLower (s : String) : String :=
  String.mk (s.data.map lowerChar)

/-- Python `s.strip()`: drop leading and trailing whitespace. -/
def pyStrip (s : String) : String :=
  String.mk
    (((s.data.dropWhile Char.isWhitespace).reverse.dropWhile
      Char.isWhitespace).reverse)

/-- Split a character list at every occurrence of `sep`
(Python `s.split(sep)` / the dot-and-dash splitting `float` and the ISO
date parser perform). -/
def splitChar (sep : Char) : List Char → List (List Char)
  | [] => [[]]
  | c :: cs =>
    match splitChar sep cs with
    | h :: t => if c == sep then [] :: h :: t else (c :: h) :: t
    | [] => if c == sep then [[], []] else [[c]]

/-- Parse a non-empty all-digit character list as a natural number
(Python `int` on a digit string). -/
def digitsToNat? (l : List Char) : Option Nat :=
  if !l.isEmpty && l.all Char.isDigit then
    some (l.foldl (fun acc c => acc * 10 + (c.toNat - 48)) 0)
  else Option.none

/-- Strict lexicographic comparison of strings by character code, the
order pandas uses on the raw date strings in a sort key. -/
def strLtb (s t : String) : Bool :=
  lexLt s.data t.data
where
  lexLt : List Char → List Char → Bool
    | [], [] => false
    | [], _ :: _ => true
    | _ :: _, [] => false
    | a :: as, b :: bs =>
      Nat.blt a.toNat b.toNat || (a == b && lexLt as bs)

/-- Python `float(s)` on a string, returning `none` where CPython raises
`ValueError`: optional sign, then a decimal numeral with at most one dot.
(Exponent forms and the "inf"/"nan" tokens do not occur in this
development: "nan"-like strings are caught by the blank check before
`float` is called, and no claim exercises infinities.) -/
def parseFloat? (s : String) : Option Rat :=
  let t := (pyStrip s).data
  let (sign, mag) : Rat × List Char :=
    match t with
    | '-' :: rest => (-1, rest)
    | '+' :: rest => (1, rest)
    | _ => (1, t)
  match splitChar '.' mag with
  | [ip] => (digitsToNat? ip).map (fun n => sign * (n : Rat))
  | [ip, fp] =>
    if ip.isEmpty && fp.isEmpty then Option.none
    else
      match (if ip.isEmpty then some 0 else digitsToNat? ip),
            (if fp.isEmpty then some 0 else digitsToNat? fp) with
      | some i, some f =>
        some (sign * ((i : Rat) + (f : Rat) / (10 : Rat) ^ fp.length))
      | _, _ => Option.none
  | _ => Option.none

/-- Model of `pd.to_datetime(s, errors="coerce")` on the date strings this
app writes (`date.isoformat()`, i.e. "YYYY-MM-DD"); anything else coerces
to NaT, i.e. `none`.  The returned ordinal is monotone in the calendar
date, which is the only property the sorting code uses. -/
def parseDate? (s : String) : Option Nat :=
  match splitChar '-' (pyStrip s).data with
  | [ys, ms, ds] =>
    match digitsToNat? ys, digitsToNat? ms, digitsToNat? ds with
    | some y, some m, some d =>
      if ys.length == 4 && (1 ≤ m && m ≤ 12) && (1 ≤ d && d ≤ 31) then
        some (y * 372 + (m - 1) * 31 + (d - 1))
      else Option.none
    | _, _, _ => Option.none
  | _ => Option.none

/-- ui_portfolio._is_blank: `v is None`, or `str(v).strip()` is "" or its
lowercase form is "nan" or "none". -/
def isBlank (v : Value) : Bool :=
  match v with
  | Value.none => true
  | _ =>
    let s := pyStrip (pyStr v)
    s == "" || (pyLower s == "nan" || pyLower s == "none")

/-- ui_portfolio._to_float_or_none: blank is `None`; else `float(v)` with
`pd.isna` screening (so a NaN float yields `None`); parse failure yields
`None`. -/
def toFloatOrNone (v : Value) : Option Rat :=
  if isBlank v then Option.none
  else
    match v with
    | Value.str s => parseFloat? s
    | Value.int n => some (n : Rat)
    | Value.float q => some q
    | Value.bool b => some (if b then 1 else 0)
    | Value.nan => Option.none
    | Value.none => Option.none

/-- ui_portfolio._valid_numeric: `_to_float_or_none`, then 0.0 is invalid. -/
def validNumeric (v : Value) : Option Rat :=
  match toFloatOrNone v with
  | Option.none => Option.none
  | some fv => if fv == 0 then Option.none else some fv

/-- ui_portfolio._valid_text: blank is `None`; else the stripped string,
unless it is "" or lowercases to "nan". -/
def validText (v : Value) : Option String :=
  if isBlank v then Option.none
  else
    let s := pyStrip (pyStr v)
    if s == "" || pyLower s == "nan" then Option.none else some s

/-- ui_portfolio._valid_bool: `None` is `None`; a Python bool is itself;
otherwise the stripped lowercased string is matched against the accepted
token sets. -/
def validBool (v : Value) : Option Bool :=
  match v with
  | Value.none => Option.none
  | Value.bool b => some b
  | _ =>
    let s := pyLower (pyStrip (pyStr v))
    if ["true", "1", "yes", "y", "on"].contains s then some true
    else if ["false", "0", "no", "n", "off"].contains s then some false
    else Option.none

/-- portfolio_storage._is_blank_like: `None` is blank; a string is blank if
it strips to "" or lowercases to "nan"; an int/float (and a Python bool,
which is an int: `float(False) == 0.0`) is blank iff it equals 0; the float
NaN is an instance of float with `float(v) == 0.0` false, so not blank. -/
def blankLike (v : Value) : Bool :=
  match v with
  | Value.none => true
  | Value.str s =>
    let t := pyStrip s
    t == "" || pyLower t == "nan"
  | Value.int n => (n : Rat) == 0
  | Value.float q => q == 0
  | Value.bool b => (if b then (1 : Rat) else 0) == 0
  | Value.nan => false

/-- Model of `pd.isna` on cell values: true for `None` and NaN. -/
def pdIsNa (v : Value) : Bool :=
  match v with
  | Value.none => true
  | Value.nan => true
  | _ => false

/-- One submitted row: an association list from column names to cell
values.  A missing entry reads as `None` (`row.get(c)` / `Series.get`). -/
abbrev Row := List (String × Value)

/-- Python `row.get(c)` with default `None`. -/
def Row.getCell (r : Row) (c : String) : Value :=
  (List.lookup c r).getD Value.none

/-- Overwrite one cell of a row (prepending shadows any older entry). -/
def Row.setCell (r : Row) (c : String) (v : Value) : Row :=
  (c, v) :: r

/-- A pandas DataFrame: its column labels and its rows in original
(insertion) order. -/
structure DataFrame where
  cols : List String
  rows : List Row

/-- portfolio_storage.PORTFOLIO_COLUMNS (identical in portfolio_utils). -/
def PORTFOLIO_COLUMNS : List String :=
  [ "date", "height_cm", "weight_kg", "bmi", "run_100m_sec",
    "run_1500m_sec", "run_3000m_sec", "track_meet", "rank", "deviation",
    "score_jp", "score_math", "score_en", "score_sci", "score_soc",
    "rating", "tcenter", "soccer_tournament", "match_result", "video_url",
    "video_note", "note" ]

/-- The numeric-column list, written out identically in
ui_portfolio._latest_values_from_df, ui_portfolio._values_for_selected_date
and portfolio_storage.read_df. -/
def numericCols : List String :=
  [ "height_cm", "weight_kg", "bmi", "run_100m_sec", "run_1500m_sec",
    "run_3000m_sec", "rank", "deviation", "score_jp", "score_math",
    "score_en", "score_sci", "score_soc", "rating" ]

/-- The text-column list of ui_portfolio._values_for_selected_date. -/
def textCols : List String :=
  [ "track_meet", "soccer_tournament", "match_result", "video_url",
    "video_note", "note" ]

/-- Insert `x` after every already-placed element `y` with `le y x`; the
building block of a stable insertion sort. -/
def insertKeyed (le : α → α → Bool) (x : α) : List α → List α
  | [] => [x]
  | y :: ys => if le y x then y :: insertKeyed le x ys else x :: y :: ys

/-- Stable sort by a boolean "less-or-equal" test, modelling pandas
`sort_values`: equal-key elements keep their original relative order.
(pandas lexsort for multi-key sorts is stable; for the single-key sort in
`latest_non_empty_by_column` the tie order of pandas' default quicksort is
implementation-defined, and no claim in this development depends on it.) -/
def stableSort (le : α → α → Bool) (l : List α) : List α :=
  l.foldl (fun acc x => insertKeyed le x acc) []

/-- The `_date_dt` sort key of ui_portfolio._normalize_df /
portfolio_utils.latest_non_empty_by_column:
`pd.to_datetime(df["date"], errors="coerce")`. -/
def Row.dateKey (r : Row) : Option Nat :=
  parseDate? (pyStr (r.getCell "date"))

/-- Lexicographic "less-or-equal" on the sort key of
ui_portfolio._latest_values_from_df:
`sort_values(by=["_date_dt", "date"], ascending=True, na_position="last")`
— parsed date first with NaT last, raw date string second. -/
def rowLe (r1 r2 : Row) : Bool :=
  match r1.dateKey, r2.dateKey with
  | some a, some b =>
    a < b || (a == b &&
      (strLtb (pyStr (r1.getCell "date")) (pyStr (r2.getCell "date")) ||
       pyStr (r1.getCell "date") == pyStr (r2.getCell "date")))
  | some _, Option.none => true
  | Option.none, some _ => false
  | Option.none, Option.none =>
    strLtb (pyStr (r1.getCell "date")) (pyStr (r2.getCell "date")) ||
      pyStr (r1.getCell "date") == pyStr (r2.getCell "date")

/-- The single-key "less-or-equal" of
portfolio_utils.latest_non_empty_by_column:
`sort_values(["__date_sort__"], ascending=True)` with NaT last. -/
def rowLeDateOnly (r1 r2 : Row) : Bool :=
  match r1.dateKey, r2.dateKey with
  | some a, some b => a ≤ b
  | some _, Option.none => true
  | Option.none, some _ => false
  | Option.none, Option.none => true

/-- Build a Python dict by iterating over column names and inserting the
resolver's value when it yields one; insertion order is column order. -/
def buildDict (cols : List String) (f : String → Option Value) :
    List (String × Value) :=
  cols.foldl
    (fun acc c =>
      match f c with
      | some v => acc ++ [(c, v)]
      | Option.none => acc)
    []

/-- Per-column body of portfolio_storage.get_latest_values: skip "date",
skip columns absent from the frame, else scan the column bottom-up
(`reversed(series.tolist())`) for the first non-blank-like value. -/
def glvCol (df : DataFrame) (col : String) : Option Value :=
  if col == "date" then Option.none
  else if !(df.cols.contains col) then Option.none
  else ((df.rows.map (fun r => r.getCell col)).reverse).find?
    (fun v => !(blankLike v))

/-- portfolio_storage.get_latest_values: per column, the latest
non-blank-like value, scanning rows in sheet order from the bottom; an
empty frame yields the empty dict. -/
def get_latest_values (df : DataFrame) : List (String × Value) :=
  if df.rows.isEmpty then []
  else buildDict PORTFOLIO_COLUMNS (glvCol df)

/-- Per-column body of ui_portfolio._latest_values_from_df, applied to the
date-sorted rows: the "tcenter" column takes the latest non-blank value
that parses as a bool, the numeric columns the latest `_valid_numeric`
value, every other column the latest `_valid_text` value. -/
def lvdCol (sorted : List Row) (cols : List String) (col : String) :
    Option Value :=
  if !(cols.contains col) then Option.none
  else
    let series := sorted.map (fun r => r.getCell col)
    if col == "tcenter" then
      (series.reverse.findSome?
        (fun v => if isBlank v then Option.none else validBool v)).map
        Value.bool
    else if numericCols.contains col then
      (series.reverse.findSome? validNumeric).map Value.float
    else
      (series.reverse.findSome? validText).map Value.str

/-- ui_portfolio._latest_values_from_df: sort rows ascending by
(parsed date with NaT last, raw date string), then resolve every portfolio
column independently by scanning from the tail. -/
def latestValuesFromDf (df : DataFrame) : List (String × Value) :=
  if df.rows.isEmpty then []
  else buildDict PORTFOLIO_COLUMNS (lvdCol (stableSort rowLe df.rows) df.cols)

/-- Per-column body of ui_portfolio._values_for_selected_date applied to
the single chosen row: numeric columns via `_valid_numeric`, the listed
text columns via `_valid_text`, "tcenter" via `_valid_bool`. -/
def vfsdRowCol (row : Row) (c : String) : Option Value :=
  if numericCols.contains c then (validNumeric (row.getCell c)).map Value.float
  else if textCols.contains c then (validText (row.getCell c)).map Value.str
  else if c == "tcenter" then (validBool (row.getCell c)).map Value.bool
  else Option.none

/-- ui_portfolio._values_for_selected_date: keep the rows whose
`str(date)` equals the ISO form of the selected date, take the last such
row (`hit.iloc[-1]`), and extract its valid cells; no match yields the
empty dict.  `key` is `d.isoformat()`. -/
def valuesForSelectedDate (df : DataFrame) (key : String) :
    List (String × Value) :=
  if df.rows.isEmpty || !(df.cols.contains "date") then []
  else
    let hits := df.rows.filter (fun r => pyStr (r.getCell "date") == key)
    match hits.getLast? with
    | Option.none => []
    | some row => buildDict (numericCols ++ textCols ++ ["tcenter"]) (vfsdRowCol row)

/-- Replace the first binding of `k` in an association list (Python dict
assignment on an existing key; `latest_non_empty_by_column` only ever
assigns keys present in its initial dict, which holds every portfolio
column). -/
def updateAssoc (l : List (String × String)) (k v : String) :
    List (String × String) :=
  l.map (fun p => if p.1 == k then (p.1, v) else p)

/-- portfolio_utils.latest_non_empty_by_column: start from a dict mapping
every portfolio column to "", sort rows ascending by parsed date (NaT
last), then walk the rows forward overwriting each non-"bmi" column with
`str(cell).strip()` whenever that is non-empty (`pd.isna` cells read as
"").  An empty frame returns the all-"" dict unchanged. -/
def latest_non_empty_by_column (df : DataFrame) : List (String × String) :=
  if df.rows.isEmpty then PORTFOLIO_COLUMNS.map (fun c => (c, ""))
  else
    (stableSort rowLeDateOnly df.rows).foldl
      (fun out row =>
        PORTFOLIO_COLUMNS.foldl
          (fun out c =>
            if c == "bmi" then out
            else
              let val :=
                if pdIsNa (row.getCell c) then ""
                else pyStrip (pyStr (row.getCell c))
              if val ≠ "" then updateAssoc out c val else out)
          out)
      (PORTFOLIO_COLUMNS.map (fun c => (c, "")))

/-- portfolio_storage.append_row: the list of cells written to the sheet —
per portfolio column, `row.get(col, "")`, blanked to "" when
`_is_blank_like` holds. -/
def append_row (row : Row) : List Value :=
  PORTFOLIO_COLUMNS.map
    (fun col =>
      let v := (List.lookup col row).getD (Value.str "")
      if blankLike v then Value.str "" else v)

/-! Helper lemmas about the embedding's list machinery. -/

theorem lookup_append {α β : Type} [BEq α] (c : α) (l₁ l₂ : List (α × β)) :
    List.lookup c (l₁ ++ l₂) = (List.lookup c l₁).or (List.lookup c l₂) := by
  induction l₁ with
  | nil => simp
  | cons p t ih =>
    cases p with
    | mk k v =>
      simp only [List.cons_append, List.lookup]
      cases h : c == k <;> simp [h, ih]

theorem lookup_buildDict_go (f : String → Option Value) :
    ∀ (cols : List String) (acc : List (String × Value)) (c : String),
    List.lookup c
      (cols.foldl
        (fun acc c =>
          match f c with
          | some v => acc ++ [(c, v)]
          | Option.none => acc)
        acc)
      = (List.lookup c acc).or (if c ∈ cols then f c else Option.none) := by
  intro cols
  induction cols with
  | nil => intro acc c; simp
  | cons c' rest ih =>
    intro acc c
    simp only [List.foldl_cons]
    rcases hfc : f c' with _ | v
    · simp only [hfc, ih]
      by_cases hc : c = c'
      · subst hc
        by_cases hm : c ∈ rest <;> simp [hm, hfc]
      · simp [List.mem_cons, hc]
    · simp only [hfc, ih, lookup_append]
      by_cases hc : c = c'
      · subst hc
        simp [List.lookup, Option.or_assoc, hfc]
      · have hck : (c == c') = false := by simp [hc]
        simp [List.lookup, hck, Option.or_assoc, List.mem_cons, hc]

theorem lookup_buildDict (cols : List String) (f : String → Option Value)
    (c : String) :
    List.lookup c (buildDict cols f) =
      (if c ∈ cols then f c else Option.none) := by
  have h := lookup_buildDict_go f cols [] c
  simpa [buildDict] using h

theorem mem_insertKeyed {le : α → α → Bool} {x a : α} :
    ∀ {l : List α}, a ∈ insertKeyed le x l ↔ a = x ∨ a ∈ l := by
  intro l
  induction l with
  | nil => simp [insertKeyed]
  | cons y ys ih =>
    simp only [insertKeyed]
    by_cases h : le y x = true
    · rw [if_pos h]
      simp only [List.mem_cons, ih]
      tauto
    · rw [if_neg h]
      simp [List.mem_cons]

theorem mem_stableSort_go {le : α → α → Bool} {a : α} :
    ∀ (l : List α) (acc : List α),
    a ∈ l.foldl (fun acc x => insertKeyed le x acc) acc ↔ a ∈ acc ∨ a ∈ l := by
  intro l
  induction l with
  | nil => intro acc; simp
  | cons x xs ih =>
    intro acc
    simp only [List.foldl_cons, ih, mem_insertKeyed, List.mem_cons]
    tauto

theorem mem_stableSort {le : α → α → Bool} {a : α} {l : List α} :
    a ∈ stableSort le l ↔ a ∈ l := by
  simpa [stableSort] using @mem_stableSort_go _ le a l []

theorem stableSort_append_one (le : α → α → Bool) (l : List α) (x : α) :
    stableSort le (l ++ [x]) = insertKeyed le x (stableSort le l) := by
  simp [stableSort, List.foldl_append]

theorem insertKeyed_all_le {le : α → α → Bool} {x : α} :
    ∀ {l : List α}, (∀ y ∈ l, le y x = true) → insertKeyed le x l = l ++ [x] := by
  intro l
  induction l with
  | nil => intro _; rfl
  | cons y ys ih =>
    intro h
    have hy : le y x = true := h y (List.mem_cons_self y ys)
    simp [insertKeyed, hy, ih fun z hz => h z (List.mem_cons_of_mem y hz)]

theorem insertKeyed_pair {le : α → α → Bool} {x₁ x₂ : α} :
    ∀ {l : List α}, (∀ y ∈ l, le y x₁ = le y x₂) →
    ∃ l₁ l₂, l = l₁ ++ l₂ ∧
      insertKeyed le x₁ l = l₁ ++ x₁ :: l₂ ∧
      insertKeyed le x₂ l = l₁ ++ x₂ :: l₂ := by
  intro l
  induction l with
  | nil => intro _; exact ⟨[], [], rfl, rfl, rfl⟩
  | cons y ys ih =>
    intro h
    by_cases hy : le y x₁ = true
    · have hy₂ : le y x₂ = true := by
        rw [← h y (List.mem_cons_self y ys)]; exact hy
      obtain ⟨l₁, l₂, hsplit, h₁, h₂⟩ :=
        ih fun z hz => h z (List.mem_cons_of_mem y hz)
      exact ⟨y :: l₁, l₂, by simp [hsplit],
        by simp [insertKeyed, hy, h₁],
        by simp [insertKeyed, hy₂, h₂]⟩
    · have hy₂ : ¬ le y x₂ = true := by
        rw [← h y (List.mem_cons_self y ys)]; exact hy
      exact ⟨[], y :: ys, rfl,
        by simp [insertKeyed, hy],
        by simp [insertKeyed, hy₂]⟩

theorem findSome?_reverse_map_middle_none {f : β → Option γ} (g : α → β)
    (l₁ l₂ : List α) (x : α) (h : f (g x) = Option.none) :
    (((l₁ ++ x :: l₂).map g).reverse).findSome? f =
      (((l₁ ++ l₂).map g).reverse).findSome? f := by
  simp only [List.map_append, List.map_cons, List.reverse_append,
    List.reverse_cons, List.findSome?_append, List.append_assoc,
    List.singleton_append, List.findSome?_cons, h]

theorem find?_reverse_map_structure {p : β → Bool} (g : α → β)
    (pre post : List α) (R : α) (hR : p (g R) = true)
    (hpost : ∀ r ∈ post, p (g r) = false) :
    (((pre ++ R :: post).map g).reverse).find? p = some (g R) := by
  have hnone : ((post.map g).reverse).find? p = Option.none := by
    rw [List.find?_eq_none]
    intro v hv
    rw [List.mem_reverse, List.mem_map] at hv
    obtain ⟨r, hr, rfl⟩ := hv
    simp [hpost r hr]
  simp only [List.map_append, List.map_cons, List.reverse_append,
    List.reverse_cons, List.find?_append, List.append_assoc,
    List.singleton_append, List.find?_cons, hR, hnone, Option.none_or]

theorem findSome?_reverse_eq (f : α → Option β) :
    ∀ l : List α, (l.reverse).findSome? f = (l.filterMap f).getLast? := by
  intro l
  induction l with
  | nil => rfl
  | cons a l ih =>
    simp only [List.reverse_cons, List.findSome?_append, ih,
      List.filterMap_cons]
    rcases hfa : f a with _ | b
    · simp [List.findSome?, hfa]
    · simp only [List.findSome?_cons, hfa, List.getLast?_cons]
      rcases h : (l.filterMap f).getLast? with _ | c <;> simp [h]

/-! Facts about the classifiers and the column lists. -/

theorem validNumeric_ne_zero {v : Value} {q : Rat}
    (h : validNumeric v = some q) : q ≠ 0 := by
  unfold validNumeric at h
  rcases hf : toFloatOrNone v with _ | fv
  · rw [hf] at h; exact absurd h (by simp)
  · rw [hf] at h
    by_cases hz : fv = 0
    · subst hz; simp at h
    · have : fv = q := by
        by_cases hb : (fv == 0) = true
        · exact absurd (by exact_mod_cast of_decide_eq_true hb) hz
        · simp [hb] at h; exact h
      subst this; exact hz

theorem contains_of_mem {l : List String} {a : String} (h : a ∈ l) :
    l.contains a = true := by
  simpa using h

theorem numeric_col_facts {c : String} (h : c ∈ numericCols) :
    c ∈ PORTFOLIO_COLUMNS ∧ (c == "date") = false ∧ (c == "tcenter") = false := by
  fin_cases h <;> exact ⟨by decide, by decide, by decide⟩

theorem text_col_facts {c : String} (h : c ∈ textCols) :
    c ∈ PORTFOLIO_COLUMNS ∧ numericCols.contains c = false ∧
      (c == "tcenter") = false := by
  fin_cases h <;> exact ⟨by decide, by decide, by decide⟩

theorem getCell_setCell_same (r : Row) (c : String) (v : Value) :
    (r.setCell c v).getCell c = v := by
  simp [Row.setCell, Row.getCell, List.lookup]

theorem getCell_setCell_ne (r : Row) (c c' : String) (v : Value)
    (h : c' ≠ c) :
    (r.setCell c v).getCell c' = r.getCell c' := by
  have hck : (c' == c) = false := by simp [h]
  simp [Row.setCell, Row.getCell, List.lookup, hck]

theorem rowLe_congr_right {y r₁ r₂ : Row}
    (h : r₁.getCell "date" = r₂.getCell "date") : rowLe y r₁ = rowLe y r₂ := by
  simp [rowLe, Row.dateKey, h]

theorem rowLe_true_of_none {r₁ r₂ : Row} {a : Nat}
    (h₁ : r₁.dateKey = some a) (h₂ : r₂.dateKey = Option.none) :
    rowLe r₁ r₂ = true := by
  simp [rowLe, h₁, h₂]

theorem validNumeric_int_zero : validNumeric (Value.int 0) = Option.none := by
  decide

theorem validNumeric_float_zero : validNumeric (Value.float 0) = Option.none := by
  decide

theorem validNumeric_none : validNumeric Value.none = Option.none := by
  decide

theorem validNumeric_unparseable {s : String}
    (h : parseFloat? s = Option.none) :
    validNumeric (Value.str s) = Option.none := by
  unfold validNumeric toFloatOrNone
  by_cases hb : isBlank (Value.str s) = true
  · simp [hb]
  · simp [hb, h]

/-! Unfolding lemmas for the resolvers. -/

theorem isEmpty_false_of_ne_nil {l : List α} (h : l ≠ []) :
    l.isEmpty = false := by
  cases l with
  | nil => exact absurd rfl h
  | cons a t => rfl

theorem lookup_latestValuesFromDf (cols : List String) (rows : List Row)
    (c : String) (h : rows ≠ []) :
    List.lookup c (latestValuesFromDf ⟨cols, rows⟩) =
      (if c ∈ PORTFOLIO_COLUMNS then lvdCol (stableSort rowLe rows) cols c
       else Option.none) := by
  simp only [latestValuesFromDf, isEmpty_false_of_ne_nil h,
    Bool.false_eq_true, if_false, lookup_buildDict]

theorem lookup_get_latest_values (cols : List String) (rows : List Row)
    (c : String) (h : rows ≠ []) :
    List.lookup c (get_latest_values ⟨cols, rows⟩) =
      (if c ∈ PORTFOLIO_COLUMNS then glvCol ⟨cols, rows⟩ c
       else Option.none) := by
  simp only [get_latest_values, isEmpty_false_of_ne_nil h,
    Bool.false_eq_true, if_false, lookup_buildDict]

theorem stableSort_singleton (le : α → α → Bool) (x : α) :
    stableSort le [x] = [x] := rfl

/-- Appending one record whose cell for a numeric column `c` is invalid
(`_valid_numeric` yields `None`) leaves `_latest_values_from_df`'s result
for `c` unchanged: the new record lands somewhere in the date-sorted order
and the tail-first scan skips it. -/
theorem latestValuesFromDf_append_invalid (cols : List String)
    (rows : List Row) (r : Row) (c : String) (hc : c ∈ numericCols)
    (hr : validNumeric (r.getCell c) = Option.none) :
    List.lookup c (latestValuesFromDf ⟨cols, rows ++ [r]⟩) =
      List.lookup c (latestValuesFromDf ⟨cols, rows⟩) := by
  obtain ⟨hP, hdate, htc⟩ := numeric_col_facts hc
  have hne : c ≠ "tcenter" := by simpa using htc
  by_cases hrows : rows = []
  · subst hrows
    have h1 : ([] : List Row) ++ [r] ≠ [] := by simp
    rw [lookup_latestValuesFromDf cols ([] ++ [r]) c h1, if_pos hP]
    have hs : stableSort rowLe ([] ++ [r]) = [r] := rfl
    rw [hs]
    have hrhs : latestValuesFromDf ⟨cols, []⟩ = [] := rfl
    rw [hrhs]
    by_cases hcc : c ∈ cols
    · simp [lvdCol, hcc, hne, hc, hr]
    · simp [lvdCol, hcc]
  · have h1 : rows ++ [r] ≠ [] := by simp
    rw [lookup_latestValuesFromDf cols (rows ++ [r]) c h1,
      lookup_latestValuesFromDf cols rows c hrows, if_pos hP, if_pos hP]
    rw [stableSort_append_one]
    obtain ⟨l₁, l₂, hsplit, hins, _⟩ :=
      @insertKeyed_pair _ rowLe r r (stableSort rowLe rows) (fun y _ => rfl)
    rw [hins, hsplit]
    by_cases hcc : c ∈ cols
    · simp only [lvdCol, contains_of_mem hcc, Bool.not_true,
        Bool.false_eq_true, if_false, contains_of_mem hc]
      rw [if_neg (show ¬((c == "tcenter") = true) by simp [htc])]
      simp only [if_true]
      rw [findSome?_reverse_map_middle_none (fun r => r.getCell c) l₁ l₂ r hr]
      rw [if_neg (show ¬((c == "tcenter") = true) by simp [htc])]
    · simp [lvdCol, hcc]

/-- Appending one record whose cell for a text column is invalid
(`_valid_text` yields `None`) likewise leaves `_latest_values_from_df`'s
result for that column unchanged. -/
theorem latestValuesFromDf_append_invalid_text (cols : List String)
    (rows : List Row) (r : Row) (c : String) (hc : c ∈ textCols)
    (hr : validText (r.getCell c) = Option.none) :
    List.lookup c (latestValuesFromDf ⟨cols, rows ++ [r]⟩) =
      List.lookup c (latestValuesFromDf ⟨cols, rows⟩) := by
  obtain ⟨hP, hnum, htc⟩ := text_col_facts hc
  by_cases hrows : rows = []
  · subst hrows
    have h1 : ([] : List Row) ++ [r] ≠ [] := by simp
    rw [lookup_latestValuesFromDf cols ([] ++ [r]) c h1, if_pos hP]
    have hs : stableSort rowLe ([] ++ [r]) = [r] := rfl
    rw [hs]
    have hrhs : latestValuesFromDf ⟨cols, []⟩ = [] := rfl
    rw [hrhs]
    by_cases hcc : c ∈ cols
    · have hne : c ≠ "tcenter" := by simpa using htc
      have hnm : c ∉ numericCols := by simpa using hnum
      simp [lvdCol, hcc, hne, hnm, hr]
    · simp [lvdCol, hcc]
  · have h1 : rows ++ [r] ≠ [] := by simp
    rw [lookup_latestValuesFromDf cols (rows ++ [r]) c h1,
      lookup_latestValuesFromDf cols rows c hrows, if_pos hP, if_pos hP]
    rw [stableSort_append_one]
    obtain ⟨l₁, l₂, hsplit, hins, _⟩ :=
      @insertKeyed_pair _ rowLe r r (stableSort rowLe rows) (fun y _ => rfl)
    rw [hins, hsplit]
    by_cases hcc : c ∈ cols
    · simp only [lvdCol, contains_of_mem hcc, Bool.not_true,
        Bool.false_eq_true, if_false, hnum]
      rw [if_neg (show ¬((c == "tcenter") = true) by simp [htc])]
      rw [if_neg (show ¬((c == "tcenter") = true) by simp [htc])]
      rw [findSome?_reverse_map_middle_none (fun r => r.getCell c) l₁ l₂ r hr]
    · simp [lvdCol, hcc]

/-- A value stored by get_latest_values is never blank-like: the bottom-up
scan only accepts cells failing `_is_blank_like`. -/
theorem get_latest_values_not_blank {cols : List String} {rows : List Row}
    {c : String} {v : Value}
    (h : List.lookup c (get_latest_values ⟨cols, rows⟩) = some v) :
    blankLike v = false := by
  by_cases hrows : rows = []
  · subst hrows
    simp [get_latest_values] at h
  · rw [lookup_get_latest_values cols rows c hrows] at h
    by_cases hP : c ∈ PORTFOLIO_COLUMNS
    · rw [if_pos hP] at h
      unfold glvCol at h
      by_cases hd : (c == "date") = true
      · rw [if_pos hd] at h; exact absurd h (by simp)
      · rw [if_neg hd] at h
        by_cases hcc : cols.contains c = true
        · rw [if_neg (by simpa using hcc)] at h
          have := List.find?_some h
          simpa using this
        · rw [if_pos (by simpa using hcc)] at h
          exact absurd h (by simp)
    · rw [if_neg hP] at h
      exact absurd h (by simp)

/-- A numeric-column value resolved by _latest_values_from_df comes from
some record's `_valid_numeric` cell, and is in particular nonzero. -/
theorem latestValuesFromDf_numeric_some {cols : List String}
    {rows : List Row} {c : String} {v : Value} (hc : c ∈ numericCols)
    (h : List.lookup c (latestValuesFromDf ⟨cols, rows⟩) = some v) :
    ∃ q : Rat, v = Value.float q ∧ q ≠ 0 ∧
      ∃ r ∈ rows, validNumeric (r.getCell c) = some q := by
  obtain ⟨hP, hdate, htc⟩ := numeric_col_facts hc
  by_cases hrows : rows = []
  · subst hrows
    exact absurd h (by simp [latestValuesFromDf, List.lookup])
  · rw [lookup_latestValuesFromDf cols rows c hrows, if_pos hP] at h
    unfold lvdCol at h
    by_cases hcc : cols.contains c = true
    · rw [if_neg (by simpa using hcc)] at h
      rw [if_neg (show ¬((c == "tcenter") = true) by simp [htc])] at h
      rw [if_pos (contains_of_mem hc)] at h
      rcases hfs : List.findSome? validNumeric
          (((stableSort rowLe rows).map (fun r => r.getCell c)).reverse) with _ | q
      · rw [hfs] at h; exact absurd h (by simp)
      · rw [hfs] at h
        have hv : v = Value.float q := by
          simpa using h.symm
        obtain ⟨x, hx, hxq⟩ := List.exists_of_findSome?_eq_some hfs
        rw [List.mem_reverse, List.mem_map] at hx
        obtain ⟨r, hr, rfl⟩ := hx
        exact ⟨q, hv, validNumeric_ne_zero hxq,
          r, mem_stableSort.mp hr, hxq⟩
    · rw [if_pos (by simpa using hcc)] at h
      exact absurd h (by simp)

/-- A column all of whose cells are blank-like is absent from
get_latest_values' result. -/
theorem get_latest_values_all_blank {cols : List String} {rows : List Row}
    {c : String} (h : ∀ r ∈ rows, blankLike (r.getCell c) = true) :
    List.lookup c (get_latest_values ⟨cols, rows⟩) = Option.none := by
  by_cases hrows : rows = []
  · subst hrows; rfl
  · rw [lookup_get_latest_values cols rows c hrows]
    by_cases hP : c ∈ PORTFOLIO_COLUMNS
    · rw [if_pos hP]
      unfold glvCol
      by_cases hd : (c == "date") = true
      · rw [if_pos hd]
      · rw [if_neg hd]
        by_cases hcc : cols.contains c = true
        · rw [if_neg (by simpa using hcc)]
          rw [List.find?_eq_none]
          intro v hv
          rw [List.mem_reverse, List.mem_map] at hv
          obtain ⟨r, hr, rfl⟩ := hv
          simp [h r hr]
        · rw [if_pos (by simpa using hcc)]
    · rw [if_neg hP]

/-- Exchanging the middle record of the sorted order for another one that
agrees on every column except a numeric column `c`, on which both are
invalid, leaves every column's lvdCol result unchanged. -/
theorem lvdCol_middle_exchange (l₁ l₂ : List Row) (x₁ x₂ : Row)
    (cols : List String) (c c'' : String) (hc : c ∈ numericCols)
    (hother : ∀ c', c' ≠ c → x₁.getCell c' = x₂.getCell c')
    (h₁ : validNumeric (x₁.getCell c) = Option.none)
    (h₂ : validNumeric (x₂.getCell c) = Option.none) :
    lvdCol (l₁ ++ x₁ :: l₂) cols c'' = lvdCol (l₁ ++ x₂ :: l₂) cols c'' := by
  by_cases hq : c'' = c
  · subst hq
    obtain ⟨hP, hdate, htc⟩ := numeric_col_facts hc
    by_cases hcc : c'' ∈ cols
    · simp only [lvdCol, contains_of_mem hcc, Bool.not_true,
        Bool.false_eq_true, if_false, contains_of_mem hc]
      rw [if_neg (show ¬((c'' == "tcenter") = true) by simp [htc])]
      rw [if_neg (show ¬((c'' == "tcenter") = true) by simp [htc])]
      simp only [if_true]
      rw [findSome?_reverse_map_middle_none (fun r => r.getCell c'') l₁ l₂ x₁ h₁,
        findSome?_reverse_map_middle_none (fun r => r.getCell c'') l₁ l₂ x₂ h₂]
    · simp [lvdCol, hcc]
  · have hxx : x₁.getCell c'' = x₂.getCell c'' := hother c'' hq
    have hmap : (l₁ ++ x₁ :: l₂).map (fun r => r.getCell c'') =
        (l₁ ++ x₂ :: l₂).map (fun r => r.getCell c'') := by
      simp [List.map_append, hxx]
    simp only [lvdCol, hmap]

/-- In get_latest_values, the record supplying a column's value is the
bottom-most whose cell is not blank-like, whatever comes before it. -/
theorem glv_lookup_last_valid (cols : List String) (pre post : List Row)
    (R : Row) (c : String) (hP : c ∈ PORTFOLIO_COLUMNS)
    (hdate : (c == "date") = false) (hcc : cols.contains c = true)
    (hR : blankLike (R.getCell c) = false)
    (hpost : ∀ r ∈ post, blankLike (r.getCell c) = true) :
    List.lookup c (get_latest_values ⟨cols, pre ++ R :: post⟩) =
      some (R.getCell c) := by
  have hne : pre ++ R :: post ≠ [] := by simp
  rw [lookup_get_latest_values _ _ _ hne, if_pos hP]
  unfold glvCol
  rw [if_neg (show ¬((c == "date") = true) by simp [hdate])]
  rw [if_neg (show ¬((!cols.contains c) = true) by simpa using hcc)]
  exact find?_reverse_map_structure (p := fun v => !blankLike v)
    (fun r => r.getCell c) pre post R (by simp [hR])
    (fun r hr => by simp [hpost r hr])

/-! Claim theorems. -/

/-- C1 counterexample: in `latest_non_empty_by_column` a numeric cell of
exactly 0 is NOT treated as absent — on a table holding weight 70 then
weight 0 it returns "0" for the weight column, overriding the older
non-zero value, contrary to the claim that a 0 cell is never returned and
never overrides. -/
theorem C1_counterexample :
    List.lookup "weight_kg" (latest_non_empty_by_column ⟨PORTFOLIO_COLUMNS,
      [[("date", Value.str "2024-01-01"), ("weight_kg", Value.int 70)],
       [("date", Value.str "2024-01-10"), ("weight_kg", Value.int 0)]]⟩) =
      some "0" := by decide

/-- C1 (amended): in the `_valid_numeric`-based resolver
`_latest_values_from_df` and in the `_is_blank_like`-based resolver
`get_latest_values`, a numeric cell of exactly 0 (int or float) is treated
as absent: appending such a record does not change the resolved value of
its column, the resolved value is never the float 0, and any value
`get_latest_values` returns is not a numeric 0.  (`latest_non_empty_by_column`
is the exception recorded by the counterexample.) -/
theorem C1_zero_is_absent_in_valid_numeric_resolvers (cols : List String)
    (rows : List Row) (r : Row) (c : String) (hc : c ∈ numericCols)
    (h0 : r.getCell c = Value.int 0 ∨ r.getCell c = Value.float 0) :
    List.lookup c (latestValuesFromDf ⟨cols, rows ++ [r]⟩) =
      List.lookup c (latestValuesFromDf ⟨cols, rows⟩) ∧
    List.lookup c (latestValuesFromDf ⟨cols, rows⟩) ≠ some (Value.float 0) ∧
    ∀ v, List.lookup c (get_latest_values ⟨cols, rows⟩) = some v →
      v ≠ Value.int 0 ∧ v ≠ Value.float 0 := by
  have hr : validNumeric (r.getCell c) = Option.none := by
    rcases h0 with h0 | h0 <;> rw [h0]
    · exact validNumeric_int_zero
    · exact validNumeric_float_zero
  refine ⟨latestValuesFromDf_append_invalid cols rows r c hc hr, ?_, ?_⟩
  · intro h
    obtain ⟨q, hv, hq, _⟩ := latestValuesFromDf_numeric_some hc h
    injection hv with h0q
    exact hq h0q.symm
  · intro v hv
    have hb := get_latest_values_not_blank hv
    constructor
    · intro he; rw [he] at hb; exact absurd hb (by decide)
    · intro he; rw [he] at hb; exact absurd hb (by decide)

/-- C1 witness: the amended statement instantiated on a concrete table
(weight 70 on 2024-01-01, then a record whose weight cell is 0), its
get_latest_values clause applied to the concretely resolved value 70. -/
theorem C1_witness :
    (List.lookup "weight_kg" (latestValuesFromDf ⟨PORTFOLIO_COLUMNS,
      [[("date", Value.str "2024-01-01"), ("weight_kg", Value.int 70)]] ++
      [[("date", Value.str "2024-01-10"), ("weight_kg", Value.int 0)]]⟩) =
      List.lookup "weight_kg" (latestValuesFromDf ⟨PORTFOLIO_COLUMNS,
        [[("date", Value.str "2024-01-01"), ("weight_kg", Value.int 70)]]⟩)) ∧
    List.lookup "weight_kg" (latestValuesFromDf ⟨PORTFOLIO_COLUMNS,
      [[("date", Value.str "2024-01-01"), ("weight_kg", Value.int 70)]]⟩) ≠
      some (Value.float 0) ∧
    (Value.int 70 ≠ Value.int 0 ∧ Value.int 70 ≠ Value.float 0) := by
  have h := C1_zero_is_absent_in_valid_numeric_resolvers PORTFOLIO_COLUMNS
    [[("date", Value.str "2024-01-01"), ("weight_kg", Value.int 70)]]
    [("date", Value.str "2024-01-10"), ("weight_kg", Value.int 0)]
    "weight_kg" (by decide) (Or.inl (by decide))
  exact ⟨h.1, h.2.1, h.2.2 (Value.int 70) (by decide)⟩

/-- C2 counterexample: a record whose date does not parse ("zzz") takes
part in `_latest_values_from_df` resolution — its weight cell 80 is the
resolved value, beating the parseably-dated record's 70, contrary to the
claim that such a record's values are never returned. -/
theorem C2_counterexample :
    List.lookup "weight_kg" (latestValuesFromDf ⟨PORTFOLIO_COLUMNS,
      [[("date", Value.str "2024-01-01"), ("weight_kg", Value.float 70)],
       [("date", Value.str "zzz"), ("weight_kg", Value.float 80)]]⟩) =
      some (Value.float 80) := by decide

/-- C2 (amended): records with unparseable dates are NOT excluded from
latest-value resolution; the date sort places them after every
parseably-dated record (NaT last), so a record with an unparseable date
and a valid numeric cell wins resolution for that column. -/
theorem C2_unparseable_dates_participate (cols : List String)
    (rows : List Row) (r : Row) (c : String) (q : Rat)
    (hrowsd : ∀ y ∈ rows, (Row.dateKey y).isSome)
    (hrd : Row.dateKey r = Option.none)
    (hc : c ∈ numericCols) (hcc : c ∈ cols)
    (hq : validNumeric (r.getCell c) = some q) :
    List.lookup c (latestValuesFromDf ⟨cols, rows ++ [r]⟩) =
      some (Value.float q) := by
  obtain ⟨hP, hdate, htc⟩ := numeric_col_facts hc
  have hne : rows ++ [r] ≠ [] := by simp
  rw [lookup_latestValuesFromDf _ _ _ hne, if_pos hP, stableSort_append_one]
  have hall : ∀ y ∈ stableSort rowLe rows, rowLe y r = true := by
    intro y hy
    obtain ⟨a, ha⟩ :=
      Option.isSome_iff_exists.mp (hrowsd y (mem_stableSort.mp hy))
    exact rowLe_true_of_none ha hrd
  rw [insertKeyed_all_le hall]
  simp only [lvdCol, contains_of_mem hcc, Bool.not_true, Bool.false_eq_true,
    if_false, contains_of_mem hc]
  rw [if_neg (show ¬((c == "tcenter") = true) by simp [htc])]
  simp only [if_true]
  simp [List.map_append, List.reverse_append, List.findSome?_cons, hq]

/-- C2 witness: the amended statement instantiated on a concrete table
(a parseable 2024-01-01 row, then a "zzz"-dated row with weight 80). -/
theorem C2_witness :
    List.lookup "weight_kg" (latestValuesFromDf ⟨PORTFOLIO_COLUMNS,
      [[("date", Value.str "2024-01-01"), ("weight_kg", Value.float 70)]] ++
      [[("date", Value.str "zzz"), ("weight_kg", Value.float 80)]]⟩) =
      some (Value.float 80) :=
  C2_unparseable_dates_participate PORTFOLIO_COLUMNS
    [[("date", Value.str "2024-01-01"), ("weight_kg", Value.float 70)]]
    [("date", Value.str "zzz"), ("weight_kg", Value.float 80)]
    "weight_kg" 80 (by decide) (by decide) (by decide) (by decide) (by decide)

/-- C5 counterexample: `latest_non_empty_by_column` applied to an empty
table does not return an empty mapping — every portfolio column appears,
mapped to the empty string. -/
theorem C5_counterexample :
    List.lookup "date" (latest_non_empty_by_column
      ⟨PORTFOLIO_COLUMNS, []⟩) = some "" ∧
    latest_non_empty_by_column ⟨PORTFOLIO_COLUMNS, []⟩ ≠ [] := by decide

/-- C5 (amended): `get_latest_values` and `_latest_values_from_df` return
the empty mapping on an empty table, and a column all of whose cells are
blank-like is absent from `get_latest_values`' result;
`latest_non_empty_by_column` instead returns every portfolio column mapped
to the empty string. -/
theorem C5_empty_table_resolution :
    (∀ cols : List String, get_latest_values ⟨cols, []⟩ = []) ∧
    (∀ cols : List String, latestValuesFromDf ⟨cols, []⟩ = []) ∧
    (∀ (cols : List String) (rows : List Row) (c : String),
      (∀ r ∈ rows, blankLike (r.getCell c) = true) →
      List.lookup c (get_latest_values ⟨cols, rows⟩) = Option.none) ∧
    latest_non_empty_by_column ⟨PORTFOLIO_COLUMNS, []⟩ =
      PORTFOLIO_COLUMNS.map (fun c => (c, "")) :=
  ⟨fun _ => rfl, fun _ => rfl,
   fun _ _ _ h => get_latest_values_all_blank h, rfl⟩

/-- C5 witness: the all-blank-column clause instantiated on a concrete
one-row table with no weight cell. -/
theorem C5_witness :
    List.lookup "weight_kg" (get_latest_values ⟨PORTFOLIO_COLUMNS,
      [[("date", Value.str "2024-01-01")]]⟩) = Option.none :=
  C5_empty_table_resolution.2.2.1 PORTFOLIO_COLUMNS
    [[("date", Value.str "2024-01-01")]] "weight_kg" (by decide)

/-- C7: in `get_latest_values`, if R is the latest (bottom-most) record
whose cell for column c is not blank-like, then removing any single
record strictly older than R in insertion order leaves the resolved value
for c unchanged — both tables resolve c to R's cell. -/
theorem C7_removing_older_preserves (cols : List String) (p₁ : List Row)
    (dead : Row) (p₂ : List Row) (R : Row) (post : List Row) (c : String)
    (hP : c ∈ PORTFOLIO_COLUMNS) (hdate : (c == "date") = false)
    (hcc : cols.contains c = true)
    (hR : blankLike (R.getCell c) = false)
    (hpost : ∀ r ∈ post, blankLike (r.getCell c) = true) :
    List.lookup c (get_latest_values
      ⟨cols, (p₁ ++ dead :: p₂) ++ R :: post⟩) = some (R.getCell c) ∧
    List.lookup c (get_latest_values
      ⟨cols, (p₁ ++ p₂) ++ R :: post⟩) = some (R.getCell c) :=
  ⟨glv_lookup_last_valid cols (p₁ ++ dead :: p₂) post R c hP hdate hcc hR
     hpost,
   glv_lookup_last_valid cols (p₁ ++ p₂) post R c hP hdate hcc hR hpost⟩

/-- C7 witness: the statement instantiated on a concrete three-row table
(an old "note" record, the latest non-blank "note" record R, and a newer
blank-note record), removing the old record. -/
theorem C7_witness :
    List.lookup "note" (get_latest_values ⟨PORTFOLIO_COLUMNS,
      ([[("date", Value.str "2024-01-01"), ("note", Value.str "old")]] ++
        [("date", Value.str "2024-01-02"), ("note", Value.str "keep")] ::
        [[("date", Value.str "2024-01-03"), ("note", Value.str "")]])⟩) =
      some (Row.getCell
        [("date", Value.str "2024-01-02"), ("note", Value.str "keep")]
        "note") ∧
    List.lookup "note" (get_latest_values ⟨PORTFOLIO_COLUMNS,
      (([] : List Row) ++
        [("date", Value.str "2024-01-02"), ("note", Value.str "keep")] ::
        [[("date", Value.str "2024-01-03"), ("note", Value.str "")]])⟩) =
      some (Row.getCell
        [("date", Value.str "2024-01-02"), ("note", Value.str "keep")]
        "note") := by
  have h := C7_removing_older_preserves PORTFOLIO_COLUMNS []
    [("date", Value.str "2024-01-01"), ("note", Value.str "old")] []
    [("date", Value.str "2024-01-02"), ("note", Value.str "keep")]
    [[("date", Value.str "2024-01-03"), ("note", Value.str "")]]
    "note" (by decide) (by decide) (by decide) (by decide) (by decide)
  simpa using h

/-- C8 counterexample: the text blank-like classifier does NOT treat
"null" as blank — `_is_blank` only recognizes "", "nan" and "none", so a
cell containing "null" (in any case, with whitespace) is a real text
value. -/
theorem C8_counterexample :
    isBlank (Value.str "null") = false ∧
    isBlank (Value.str " NULL ") = false ∧
    validText (Value.str " NULL ") = some "NULL" := by decide

/-- C8 (amended): for a text value, the blank-like classifier returns
true exactly when the trimmed lowercase form is "", "nan" or "none" (the
null value is blank as well); "null" is not in the list, and any
non-blank text cell resolves to its stripped form. -/
theorem C8_text_blank_characterization (s : String) :
    (isBlank (Value.str s) =
      (pyStrip s == "" || (pyLower (pyStrip s) == "nan" ||
        pyLower (pyStrip s) == "none")) ∧
     isBlank Value.none = true) ∧
    (isBlank (Value.str s) = false →
      validText (Value.str s) = some (pyStrip s)) := by
  refine ⟨⟨rfl, rfl⟩, ?_⟩
  intro h
  have h' : (pyStrip s == "" || (pyLower (pyStrip s) == "nan" ||
      pyLower (pyStrip s) == "none")) = false := h
  simp only [Bool.or_eq_false_iff] at h'
  obtain ⟨h1, h2, _⟩ := h'
  unfold validText
  rw [if_neg (by simp [h])]
  simp only [pyStr]
  rw [if_neg (by simp [h1, h2])]

/-- C8 witness: the amended characterization instantiated at "hello". -/
theorem C8_witness :
    validText (Value.str "hello") = some (pyStrip "hello") :=
  (C8_text_blank_characterization "hello").2 (by decide)

/-- C9: the storage blank-like classifier is type-sensitive about zero —
the numeric values 0 and 0.0 are blank, but the string "0" is not, and a
cell stored as the text "0" is returned as a column's resolved latest
value by `get_latest_values`. -/
theorem C9_zero_type_sensitivity :
    blankLike (Value.int 0) = true ∧
    blankLike (Value.float 0) = true ∧
    blankLike (Value.str "0") = false ∧
    List.lookup "note" (get_latest_values ⟨PORTFOLIO_COLUMNS,
      [[("date", Value.str "2024-02-01"), ("note", Value.str "x")],
       [("date", Value.str "2024-02-02"), ("note", Value.str "0")]]⟩) =
      some (Value.str "0") := by decide

/-- C10: every cell written by `append_row` is either the empty string or
a non-blank-like value; in particular a numeric zero (int or float) is
never persisted. -/
theorem C10_append_row_blank_scrub (row : Row) (v : Value)
    (hv : v ∈ append_row row) :
    (v = Value.str "" ∨ blankLike v = false) ∧
    v ≠ Value.int 0 ∧ v ≠ Value.float 0 := by
  unfold append_row at hv
  rw [List.mem_map] at hv
  obtain ⟨col, hcol, hveq⟩ := hv
  dsimp only at hveq
  by_cases hb : blankLike ((List.lookup col row).getD (Value.str "")) = true
  · rw [if_pos hb] at hveq
    subst hveq
    exact ⟨Or.inl rfl, by decide, by decide⟩
  · rw [if_neg hb] at hveq
    subst hveq
    refine ⟨Or.inr (by simpa using hb), ?_, ?_⟩
    · intro he; rw [he] at hb; exact hb (by decide)
    · intro he; rw [he] at hb; exact hb (by decide)

/-- C10 witness: the statement instantiated on a concrete submitted row
whose "note" cell is "hi". -/
theorem C10_witness :
    ((Value.str "hi" = Value.str "" ∨ blankLike (Value.str "hi") = false) ∧
     Value.str "hi" ≠ Value.int 0 ∧ Value.str "hi" ≠ Value.float 0) :=
  C10_append_row_blank_scrub [("note", Value.str "hi")] (Value.str "hi")
    (by decide)

/-- Unfolding of valuesForSelectedDate once the guards pass and the last
matching row is known. -/
theorem valuesForSelectedDate_eq (cols : List String) (rows : List Row)
    (key : String) (row : Row) (hne : rows.isEmpty = false)
    (hd : cols.contains "date" = true)
    (hlast : (rows.filter
      (fun r => pyStr (r.getCell "date") == key)).getLast? = some row) :
    valuesForSelectedDate ⟨cols, rows⟩ key =
      buildDict (numericCols ++ textCols ++ ["tcenter"]) (vfsdRowCol row) := by
  unfold valuesForSelectedDate
  dsimp only
  rw [hne, hd]
  simp only [Bool.not_true, Bool.or_false]
  rw [if_neg (by simp)]
  rw [hlast]

/-- C3 counterexample: with two records on the same date, inserted as
height 160 then height 0, the exact-date lookup returns nothing for the
height column (the later same-day blank-like 0 erases the earlier 160),
contrary to the claimed per-column resolution among same-day rows. -/
theorem C3_counterexample :
    List.lookup "height_cm" (valuesForSelectedDate ⟨PORTFOLIO_COLUMNS,
      [[("date", Value.str "2024-03-03"), ("height_cm", Value.int 160)],
       [("date", Value.str "2024-03-03"), ("height_cm", Value.int 0)]]⟩
      "2024-03-03") = Option.none ∧
    List.lookup "height_cm" (valuesForSelectedDate ⟨PORTFOLIO_COLUMNS,
      [[("date", Value.str "2024-03-03"), ("height_cm", Value.int 160)]]⟩
      "2024-03-03") = some (Value.float 160) := by decide

/-- C3 (amended): when several records share the target date, the
exact-date lookup consults ONLY the last-inserted matching row: each
numeric or text column resolves from that row's cell alone, so a
blank-like cell there leaves the column absent even if an earlier
same-day record had a non-blank value. -/
theorem C3_exact_date_last_row_only (cols : List String) (rows : List Row)
    (r : Row) (key c : String) (hdcol : cols.contains "date" = true)
    (hkey : pyStr (r.getCell "date") = key) :
    (c ∈ numericCols →
      List.lookup c (valuesForSelectedDate ⟨cols, rows ++ [r]⟩ key) =
        (validNumeric (r.getCell c)).map Value.float) ∧
    (c ∈ textCols →
      List.lookup c (valuesForSelectedDate ⟨cols, rows ++ [r]⟩ key) =
        (validText (r.getCell c)).map Value.str) := by
  have hpred : (fun row : Row => pyStr (row.getCell "date") == key) r
      = true := by simp [hkey]
  have hlast : ((rows ++ [r]).filter
      (fun row => pyStr (row.getCell "date") == key)).getLast? = some r := by
    rw [List.filter_append,
      show List.filter (fun row : Row => pyStr (row.getCell "date") == key)
        [r] = [r] by simp [hpred],
      List.getLast?_concat]
  have hmain := valuesForSelectedDate_eq cols (rows ++ [r]) key r
    (isEmpty_false_of_ne_nil (by simp)) hdcol hlast
  constructor
  · intro hc
    rw [hmain, lookup_buildDict]
    rw [if_pos (by
      rw [List.append_assoc]
      exact List.mem_append_left _ hc)]
    unfold vfsdRowCol
    rw [if_pos (contains_of_mem hc)]
  · intro hc
    obtain ⟨hP, hnum, htc⟩ := text_col_facts hc
    rw [hmain, lookup_buildDict]
    rw [if_pos (List.mem_append_left _ (List.mem_append_right _ hc))]
    unfold vfsdRowCol
    rw [if_neg (by simpa using hnum), if_pos (contains_of_mem hc)]

/-- C3 witness: the amended statement instantiated on a same-day pair
(height 160 then height 0). -/
theorem C3_witness :
    List.lookup "height_cm" (valuesForSelectedDate ⟨PORTFOLIO_COLUMNS,
      [[("date", Value.str "2024-03-03"), ("height_cm", Value.int 160)]] ++
      [[("date", Value.str "2024-03-03"), ("height_cm", Value.int 0)]]⟩
      "2024-03-03") =
      (validNumeric (Row.getCell
        [("date", Value.str "2024-03-03"), ("height_cm", Value.int 0)]
        "height_cm")).map Value.float :=
  (C3_exact_date_last_row_only PORTFOLIO_COLUMNS
    [[("date", Value.str "2024-03-03"), ("height_cm", Value.int 160)]]
    [("date", Value.str "2024-03-03"), ("height_cm", Value.int 0)]
    "2024-03-03" "height_cm" (by decide) (by decide)).1 (by decide)

/-- C4: latest-value resolution in `_latest_values_from_df` treats each
column independently — for a numeric column the resolved value is the last
`_valid_numeric` cell of that column in date-sorted order and is supplied
by some record's non-blank cell, and appending a record whose cell for a
numeric (or text) column is blank-like/invalid never erases the column's
resolved value. -/
theorem C4_column_independent_latest (cols : List String) (rows : List Row)
    (r : Row) (c : String) (hc : c ∈ numericCols)
    (hcc : cols.contains c = true) (hrows : rows ≠ []) :
    (List.lookup c (latestValuesFromDf ⟨cols, rows⟩) =
      (((stableSort rowLe rows).filterMap
        (fun row => validNumeric (row.getCell c))).getLast?).map
        Value.float) ∧
    (validNumeric (r.getCell c) = Option.none →
      List.lookup c (latestValuesFromDf ⟨cols, rows ++ [r]⟩) =
        List.lookup c (latestValuesFromDf ⟨cols, rows⟩)) ∧
    (∀ q, List.lookup c (latestValuesFromDf ⟨cols, rows⟩) =
        some (Value.float q) →
      ∃ row ∈ rows, validNumeric (row.getCell c) = some q) ∧
    ∀ ct, ct ∈ textCols → validText (r.getCell ct) = Option.none →
      List.lookup ct (latestValuesFromDf ⟨cols, rows ++ [r]⟩) =
        List.lookup ct (latestValuesFromDf ⟨cols, rows⟩) := by
  obtain ⟨hP, hdate, htc⟩ := numeric_col_facts hc
  refine ⟨?_,
    fun hr => latestValuesFromDf_append_invalid cols rows r c hc hr, ?_,
    fun ct hct hrt =>
      latestValuesFromDf_append_invalid_text cols rows r ct hct hrt⟩
  · rw [lookup_latestValuesFromDf _ _ _ hrows, if_pos hP]
    simp only [lvdCol, hcc, Bool.not_true, Bool.false_eq_true, if_false,
      contains_of_mem hc]
    rw [if_neg (show ¬((c == "tcenter") = true) by simp [htc])]
    simp only [if_true]
    rw [findSome?_reverse_eq, List.filterMap_map]
    rfl
  · intro q h
    obtain ⟨q', hv, _, row, hrow, hq'⟩ := latestValuesFromDf_numeric_some hc h
    injection hv with hqq
    exact ⟨row, hrow, by rw [hqq]; exact hq'⟩

/-- C4 witness: the statement instantiated on a concrete table (weight 70
then a record blank for both the weight and the note columns appended),
with every quantifier and hypothesis discharged concretely. -/
theorem C4_witness :
    (List.lookup "weight_kg" (latestValuesFromDf ⟨PORTFOLIO_COLUMNS,
      [[("date", Value.str "2024-02-01"), ("weight_kg", Value.int 70)]]⟩) =
      (((stableSort rowLe
        [[("date", Value.str "2024-02-01"),
          ("weight_kg", Value.int 70)]]).filterMap
        (fun row => validNumeric (row.getCell "weight_kg"))).getLast?).map
        Value.float) ∧
    (List.lookup "weight_kg" (latestValuesFromDf ⟨PORTFOLIO_COLUMNS,
        [[("date", Value.str "2024-02-01"), ("weight_kg", Value.int 70)]] ++
        [[("date", Value.str "2024-02-02"), ("weight_kg", Value.str "")]]⟩) =
      List.lookup "weight_kg" (latestValuesFromDf ⟨PORTFOLIO_COLUMNS,
        [[("date", Value.str "2024-02-01"),
          ("weight_kg", Value.int 70)]]⟩)) ∧
    (∃ row ∈ [[("date", Value.str "2024-02-01"),
        ("weight_kg", Value.int 70)]],
      validNumeric (Row.getCell row "weight_kg") = some 70) ∧
    (List.lookup "note" (latestValuesFromDf ⟨PORTFOLIO_COLUMNS,
        [[("date", Value.str "2024-02-01"), ("weight_kg", Value.int 70)]] ++
        [[("date", Value.str "2024-02-02"), ("weight_kg", Value.str "")]]⟩) =
      List.lookup "note" (latestValuesFromDf ⟨PORTFOLIO_COLUMNS,
        [[("date", Value.str "2024-02-01"),
          ("weight_kg", Value.int 70)]]⟩)) := by
  have h := C4_column_independent_latest PORTFOLIO_COLUMNS
    [[("date", Value.str "2024-02-01"), ("weight_kg", Value.int 70)]]
    [("date", Value.str "2024-02-02"), ("weight_kg", Value.str "")]
    "weight_kg" (by decide) (by decide) (by decide)
  exact ⟨h.1, h.2.1 (by decide), h.2.2.1 70 (by decide),
    h.2.2.2 "note" (by decide) (by decide)⟩

/-- C6: a malformed cell is absorbed locally — a non-parseable string in
a numeric column behaves exactly like a blank cell: the whole resolution
result (every column) is the same as if the cell were None, and no step
raises (every classifier is total, returning "blank" on failure). -/
theorem C6_malformed_cell_absorbed (cols : List String) (rows : List Row)
    (r : Row) (c s : String) (c'' : String) (hc : c ∈ numericCols)
    (hs : parseFloat? s = Option.none) :
    List.lookup c'' (latestValuesFromDf
      ⟨cols, rows ++ [r.setCell c (Value.str s)]⟩) =
    List.lookup c'' (latestValuesFromDf
      ⟨cols, rows ++ [r.setCell c Value.none]⟩) := by
  obtain ⟨hP, hdate, htc⟩ := numeric_col_facts hc
  have hcd : c ≠ "date" := by simpa using hdate
  have hdc : ("date" : String) ≠ c := fun he => hcd he.symm
  have hdd : (r.setCell c (Value.str s)).getCell "date" =
      (r.setCell c Value.none).getCell "date" := by
    rw [getCell_setCell_ne r c "date" _ hdc, getCell_setCell_ne r c "date" _ hdc]
  have h₁ : validNumeric ((r.setCell c (Value.str s)).getCell c) =
      Option.none := by
    rw [getCell_setCell_same]; exact validNumeric_unparseable hs
  have h₂ : validNumeric ((r.setCell c Value.none).getCell c) =
      Option.none := by
    rw [getCell_setCell_same]; exact validNumeric_none
  have hne₁ : rows ++ [r.setCell c (Value.str s)] ≠ [] := by simp
  have hne₂ : rows ++ [r.setCell c Value.none] ≠ [] := by simp
  rw [lookup_latestValuesFromDf _ _ _ hne₁,
    lookup_latestValuesFromDf _ _ _ hne₂]
  by_cases hmem : c'' ∈ PORTFOLIO_COLUMNS
  · rw [if_pos hmem, if_pos hmem, stableSort_append_one,
      stableSort_append_one]
    obtain ⟨l₁, l₂, hsplit, hins₁, hins₂⟩ :=
      @insertKeyed_pair _ rowLe (r.setCell c (Value.str s))
        (r.setCell c Value.none) (stableSort rowLe rows)
        (fun y _ => rowLe_congr_right hdd)
    rw [hins₁, hins₂]
    exact lvdCol_middle_exchange l₁ l₂ _ _ cols c c'' hc
      (fun c' hc' => by
        rw [getCell_setCell_ne r c c' _ hc', getCell_setCell_ne r c c' _ hc'])
      h₁ h₂
  · rw [if_neg hmem, if_neg hmem]

/-- C6 witness: the statement instantiated with the malformed numeric
string "abc" in the weight column of an appended record. -/
theorem C6_witness :
    List.lookup "weight_kg" (latestValuesFromDf ⟨PORTFOLIO_COLUMNS,
      [[("date", Value.str "2024-01-01"), ("weight_kg", Value.int 70)]] ++
      [Row.setCell [("date", Value.str "2024-01-02")] "weight_kg"
        (Value.str "abc")]⟩) =
    List.lookup "weight_kg" (latestValuesFromDf ⟨PORTFOLIO_COLUMNS,
      [[("date", Value.str "2024-01-01"), ("weight_kg", Value.int 70)]] ++
      [Row.setCell [("date", Value.str "2024-01-02")] "weight_kg"
        Value.none]⟩) :=
  C6_malformed_cell_absorbed PORTFOLIO_COLUMNS
    [[("date", Value.str "2024-01-01"), ("weight_kg", Value.int 70)]]
    [("date", Value.str "2024-01-02")] "weight_kg" "abc" "weight_kg"
    (by decide) (by decide)
